import Mathlib

/-!
# Verification of the MobileNet / FD-MobileNet model-construction code (`mobilenet.py`)

This file gives a shallow embedding of the architecture-construction, weight
initialization, factory, and layer-repartitioning logic of `mobilenet.py` and
proves the specification claims about it.

Embedding conventions:
* A PyTorch module tree is the inductive type `PyModule`.  Composite nodes carry
  their named children in registration order, mirroring `nn.Module.children()`
  and `named_modules()`.  The top-level `MobileNet` object is the structure
  `MobileNetModel` with its two registered children `features` and `output`.
* Parameter tensors are abstracted by `ParamVal`: the value a whole tensor was
  filled with (`defaultInit` = the framework's own reset at construction,
  `kaimingNormalFanIn` / `kaimingNormalFanOut` = the scaled random fills of
  `init.kaiming_normal_`, `const v` = every entry equal to `v`).
* Python `int` arithmetic is `Int`, Python `float` width scales are `ℚ`
  (every scale used in the file — 1.0, 0.75, 0.5, 0.25 — is an exact binary
  float, so rational arithmetic coincides with the float arithmetic performed
  by the source), `int(x)` is `pyInt` (truncation toward zero).
* Fallible operations (list indexing `channels[0][0]`, `raise ValueError`)
  return `Option` / `Except PyError`.
* Python's substring test `pat in name` is `pyIn`, the infix relation on the
  character lists of the two strings.
-/

/-- Decimal digit character for `d < 10` (char code `48 + d`). -/
def natDigitChar (d : Nat) : Char := Char.ofNat (48 + d)

/-- Fuel-driven decimal conversion (structural recursion on the fuel, so that
it reduces definitionally); `natToDigitsList` always supplies enough fuel. -/
def natToDigitsAux : Nat → Nat → List Char
  | 0, _ => []
  | fuel + 1, n =>
      if n < 10 then [natDigitChar n]
      else natToDigitsAux fuel (n / 10) ++ [natDigitChar (n % 10)]

/-- Decimal representation of a natural number as a character list, embedding
Python's `str(n)` / `"{}".format(n)` for nonnegative `n`. -/
def natToDigitsList (n : Nat) : List Char := natToDigitsAux (n + 1) n

/-- Decimal representation of a natural number as a string. -/
def natToString (n : Nat) : String := ⟨natToDigitsList n⟩

/-- The value with which a parameter tensor is filled. -/
inductive ParamVal where
  | defaultInit
  | kaimingNormalFanIn
  | kaimingNormalFanOut
  | const (v : Int)
deriving DecidableEq

/-- A PyTorch module tree, specialised to the module kinds `mobilenet.py`
builds.  `sequential` is `nn.Sequential` (named children in registration
order); `dws` is the file's own `DwsConvBlock` container with children
`dw_conv` and `pw_conv`; `block` is a generic `nn.Module` composite with named
children (used for the conv blocks imported from `common`); the remaining
constructors are leaf layers.  `conv2d` carries no bias (the conv inside the
`common` blocks is followed by a batch norm), `linear` carries a bias flag. -/
inductive PyModule where
  | sequential (children : List (String × PyModule))
  | dws (dwConv pwConv : PyModule)
  | block (children : List (String × PyModule))
  | conv2d (inChannels outChannels stride : Int) (weight : ParamVal)
  | batchNorm (numFeatures : Int) (weight bias : ParamVal)
  | activ
  | avgPool2d (kernelSize stride : Int)
  | linear (inFeatures outFeatures : Int) (hasBias : Bool) (weight bias : ParamVal)

/-- The constructed `MobileNet` object: an `nn.Module` whose registered
children are, in order, `features` (an `nn.Sequential`) and `output`
(an `nn.Linear`). -/
structure MobileNetModel where
  features : PyModule
  output : PyModule

/-- Full dotted name of a child module, as produced by
`nn.Module.named_modules()`. -/
def childName (pre n : String) : String :=
  if pre = "" then n else pre ++ "." ++ n

/-- Named direct children of a module, in registration order
(`nn.Module.children()` / `named_children()`). -/
def PyModule.namedChildren : PyModule → List (String × PyModule)
  | .sequential cs => cs
  | .dws dw pw => [("dw_conv", dw), ("pw_conv", pw)]
  | .block cs => cs
  | _ => []

mutual

/-- `named_modules()` restricted to the subtree rooted at a module whose full
name is `pre`: the module itself followed by all descendants, each with its
full dotted name. -/
def namedModulesAux : String → PyModule → List (String × PyModule)
  | pre, .sequential cs => (pre, .sequential cs) :: namedModulesList pre cs
  | pre, .dws dw pw =>
      (pre, .dws dw pw) ::
        (namedModulesAux (childName pre "dw_conv") dw ++
          namedModulesAux (childName pre "pw_conv") pw)
  | pre, .block cs => (pre, .block cs) :: namedModulesList pre cs
  | pre, m => [(pre, m)]

/-- `named_modules()` of a list of named children sitting under prefix `pre`. -/
def namedModulesList : String → List (String × PyModule) → List (String × PyModule)
  | _, [] => []
  | pre, (n, c) :: rest =>
      namedModulesAux (childName pre n) c ++ namedModulesList pre rest

end

/-- All named submodules of the constructed `MobileNet` object (its
`named_modules()` minus the unnamed root, which holds no parameters of its
own): the `features` subtree then the `output` layer. -/
def namedModulesModel (m : MobileNetModel) : List (String × PyModule) :=
  namedModulesAux "features" m.features ++ namedModulesAux "output" m.output

/-- Python's substring test `pat in s` on strings. -/
def pyIn (pat s : String) : Prop := pat.data <:+: s.data

instance (pat s : String) : Decidable (pyIn pat s) :=
  List.decidableInfix pat.data s.data

/-- The initialization rule `MobileNet._init_params` selects for a module with
full name `name`, translating its `if`/`elif` chain literally:

    if 'dw_conv.conv' in name:            kaiming_normal_(weight, fan_in)
    elif name == 'init_block.conv' or 'pw_conv.conv' in name:
                                          kaiming_normal_(weight, fan_out)
    elif 'bn' in name:                    constant_(weight, 1); constant_(bias, 0)
    elif 'output' in name:                kaiming_normal_(weight, fan_out); constant_(bias, 0)
-/
inductive InitAction where
  | kaimingFanIn
  | kaimingFanOut
  | bnConst
  | outputRule
  | noRule
deriving DecidableEq

/-- Which branch of `_init_params` fires for a module named `name`. -/
def initRuleFor (name : String) : InitAction :=
  if pyIn "dw_conv.conv" name then .kaimingFanIn
  else if name = "init_block.conv" ∨ pyIn "pw_conv.conv" name then .kaimingFanOut
  else if pyIn "bn" name then .bnConst
  else if pyIn "output" name then .outputRule
  else .noRule

/-- Overwrite the `weight` parameter of a module (`init.kaiming_normal_` /
`init.constant_` on `module.weight`).  Modules without a `weight` attribute are
returned unchanged; in the constructed networks no initialization rule ever
matches such a module, so the Python `AttributeError` path is unreachable. -/
def setWeight (v : ParamVal) : PyModule → PyModule
  | .conv2d i o s _ => .conv2d i o s v
  | .batchNorm n _ b => .batchNorm n v b
  | .linear i o hb _ b => .linear i o hb v b
  | m => m

/-- Overwrite the `bias` parameter of a module (`init.constant_` on
`module.bias`); same convention as `setWeight`. -/
def setBias (v : ParamVal) : PyModule → PyModule
  | .batchNorm n w _ => .batchNorm n w v
  | .linear i o hb w _ => .linear i o hb w v
  | m => m

/-- Apply one `_init_params` branch to a module. -/
def applyAction : InitAction → PyModule → PyModule
  | .kaimingFanIn, m => setWeight .kaimingNormalFanIn m
  | .kaimingFanOut, m => setWeight .kaimingNormalFanOut m
  | .bnConst, m => setBias (.const 0) (setWeight (.const 1) m)
  | .outputRule, m => setBias (.const 0) (setWeight .kaimingNormalFanOut m)
  | .noRule, m => m

mutual

/-- `MobileNet._init_params` on the subtree rooted at full name `pre`: every
descendant module is rewritten by the branch its full name selects.  Composite
nodes hold no parameters of their own and no rule matches their names in the
constructed networks, so only leaves are rewritten. -/
def initParamsAux : String → PyModule → PyModule
  | pre, .sequential cs => .sequential (initParamsList pre cs)
  | pre, .dws dw pw =>
      .dws (initParamsAux (childName pre "dw_conv") dw)
        (initParamsAux (childName pre "pw_conv") pw)
  | pre, .block cs => .block (initParamsList pre cs)
  | pre, m => applyAction (initRuleFor pre) m

/-- `_init_params` on a list of named children under prefix `pre`. -/
def initParamsList : String → List (String × PyModule) → List (String × PyModule)
  | _, [] => []
  | pre, (n, c) :: rest =>
      (n, initParamsAux (childName pre n) c) :: initParamsList pre rest

end

/-- `MobileNet._init_params` applied to the whole constructed object: its two
children are `features` and `output` (the root itself holds no parameters). -/
def init_params (m : MobileNetModel) : MobileNetModel :=
  { features := initParamsAux "features" m.features,
    output := initParamsAux "output" m.output }

/-- Modelled from the spec: `common.conv3x3_block` is not part of this
repository; per the spec's Block Builders contract it is an "external
collaborator producing a convolution+normalization+activation unit from a
channel/stride specification", so it is a composite with children `conv`
(the convolution), `bn` (the normalization layer) and `activ` (the
activation), all parameters at the framework default before `_init_params`. -/
def conv3x3_block (in_channels out_channels stride : Int) : PyModule :=
  .block [("conv", .conv2d in_channels out_channels stride .defaultInit),
          ("bn", .batchNorm out_channels .defaultInit .defaultInit),
          ("activ", .activ)]

/-- Modelled from the spec: `common.dwconv3x3_block` (depthwise variant of the
conv block, groups = input channels); same child layout as `conv3x3_block`. -/
def dwconv3x3_block (in_channels out_channels stride : Int) : PyModule :=
  .block [("conv", .conv2d in_channels out_channels stride .defaultInit),
          ("bn", .batchNorm out_channels .defaultInit .defaultInit),
          ("activ", .activ)]

/-- Modelled from the spec: `common.conv1x1_block` (pointwise 1x1 conv block,
stride 1); same child layout as `conv3x3_block`. -/
def conv1x1_block (in_channels out_channels : Int) : PyModule :=
  .block [("conv", .conv2d in_channels out_channels 1 .defaultInit),
          ("bn", .batchNorm out_channels .defaultInit .defaultInit),
          ("activ", .activ)]

/-- `DwsConvBlock.__init__`: a depthwise conv block (`dw_conv`, output
channels = input channels) followed by a pointwise conv block (`pw_conv`). -/
def DwsConvBlock (in_channels out_channels stride : Int) : PyModule :=
  .dws (dwconv3x3_block in_channels in_channels stride)
    (conv1x1_block in_channels out_channels)

/-- The inner loop of `MobileNet.__init__` over one stage's channel list
(`for j, out_channels in enumerate(channels_per_stage)`), carrying the running
`in_channels`.  `i` is the stage index, `j` the unit index; each unit gets
`stride = 2 if (j == 0) and ((i != 0) or first_stage_stride) else 1` and is
registered as `"unit{}".format(j + 1)`.  Returns the named unit list and the
final `in_channels`. -/
def buildStageUnits (first_stage_stride : Bool) (i : Nat) :
    Int → List Int → Nat → List (String × PyModule) × Int
  | in_channels, [], _ => ([], in_channels)
  | in_channels, out_channels :: rest, j =>
      let stride : Int :=
        if j = 0 ∧ (i ≠ 0 ∨ first_stage_stride = true) then 2 else 1
      let tailUnits := buildStageUnits first_stage_stride i out_channels rest (j + 1)
      (("unit" ++ natToString (j + 1), DwsConvBlock in_channels out_channels stride)
          :: tailUnits.1,
        tailUnits.2)

/-- The outer loop of `MobileNet.__init__`
(`for i, channels_per_stage in enumerate(channels[1:])`): one
`nn.Sequential` stage per remaining channel-table entry, registered as
`"stage{}".format(i + 1)`.  Returns the named stage list and the final
`in_channels`. -/
def buildStages (first_stage_stride : Bool) :
    Nat → Int → List (List Int) → List (String × PyModule) × Int
  | _, in_channels, [] => ([], in_channels)
  | i, in_channels, channels_per_stage :: rest =>
      let units := buildStageUnits first_stage_stride i in_channels channels_per_stage 0
      let tailStages := buildStages first_stage_stride (i + 1) units.2 rest
      (("stage" ++ natToString (i + 1), PyModule.sequential units.1) :: tailStages.1,
        tailStages.2)

/-- `MobileNet.__init__`: stem conv (`init_block`, stride 2) mapping
`in_channels` to `channels[0][0]`, the stages, a `final_pool`
(`nn.AvgPool2d(kernel_size=7, stride=1)`), and the `output` linear classifier
(`nn.Linear`, bias on by default).  The indexing `channels[0][0]` raises
`IndexError` on an empty table or empty first entry, modelled by `none`. -/
def MobileNetInit (channels : List (List Int)) (first_stage_stride : Bool)
    (in_channels : Int) (num_classes : Int) : Option MobileNetModel :=
  match channels with
  | [] => none
  | c0 :: rest =>
    match c0 with
    | [] => none
    | init_block_channels :: _ =>
      let stages := buildStages first_stage_stride 0 init_block_channels rest
      some
        { features := PyModule.sequential
            ((("init_block", conv3x3_block in_channels init_block_channels 2)
                :: stages.1)
              ++ [("final_pool", PyModule.avgPool2d 7 1)]),
          output := PyModule.linear stages.2 num_classes true
            .defaultInit .defaultInit }

/-- Exceptions `get_mobilenet` (or the construction it calls) can raise. -/
inductive PyError where
  | unsupportedVersion
  | missingModelName
  | indexError
deriving DecidableEq

/-- The `'orig'` channel table of `get_mobilenet`. -/
def channelsOrig : List (List Int) :=
  [[32], [64], [128, 128], [256, 256], [512, 512, 512, 512, 512, 512], [1024, 1024]]

/-- The `'fd'` channel table of `get_mobilenet`. -/
def channelsFd : List (List Int) :=
  [[32], [64], [128, 128], [256, 256], [512, 512, 512, 512, 512, 1024]]

/-- Python `int(x)`: truncation toward zero. -/
def pyInt (q : ℚ) : Int := if 0 ≤ q then ⌊q⌋ else ⌈q⌉

/-- The width-scaling step of `get_mobilenet`:
`if width_scale != 1.0: channels = [[int(cij * width_scale) for cij in ci] for ci in channels]`. -/
def scale_channels (channels : List (List Int)) (width_scale : ℚ) :
    List (List Int) :=
  if width_scale ≠ 1 then
    channels.map (fun ci => ci.map (fun cij : Int => pyInt ((cij : ℚ) * width_scale)))
  else channels

/-- The tail of `get_mobilenet` after the version dispatch: scale the table,
construct the net, then (only if `pretrained`) demand a usable `model_name`
before calling the external `download_model`.  The returned flag records
whether `download_model` was invoked. -/
def get_mobilenet_build (channels : List (List Int)) (first_stage_stride : Bool)
    (width_scale : ℚ) (model_name : Option String) (pretrained : Bool) :
    Except PyError (MobileNetModel × Bool) :=
  match MobileNetInit (scale_channels channels width_scale) first_stage_stride 3 1000 with
  | none => .error .indexError
  | some net =>
    if pretrained then
      if model_name = none ∨ model_name = some "" then .error .missingModelName
      else .ok (net, true)
    else .ok (net, false)

/-- `get_mobilenet`: version dispatch (`'orig'` / `'fd'`, anything else raises
`ValueError` before any other work), then scaling, construction, and the
pretrained-loading check. -/
def get_mobilenet (version : String) (width_scale : ℚ)
    (model_name : Option String) (pretrained : Bool) :
    Except PyError (MobileNetModel × Bool) :=
  if version = "orig" then
    get_mobilenet_build channelsOrig false width_scale model_name pretrained
  else if version = "fd" then
    get_mobilenet_build channelsFd true width_scale model_name pretrained
  else .error .unsupportedVersion

/-- `mobilenet_w1`. -/
def mobilenet_w1 (pretrained : Bool) : Except PyError (MobileNetModel × Bool) :=
  get_mobilenet "orig" 1 (some "mobilenet_w1") pretrained

/-- `mobilenet_w3d4`. -/
def mobilenet_w3d4 (pretrained : Bool) : Except PyError (MobileNetModel × Bool) :=
  get_mobilenet "orig" (3 / 4) (some "mobilenet_w3d4") pretrained

/-- `mobilenet_wd2`. -/
def mobilenet_wd2 (pretrained : Bool) : Except PyError (MobileNetModel × Bool) :=
  get_mobilenet "orig" (1 / 2) (some "mobilenet_wd2") pretrained

/-- `mobilenet_wd4`. -/
def mobilenet_wd4 (pretrained : Bool) : Except PyError (MobileNetModel × Bool) :=
  get_mobilenet "orig" (1 / 4) (some "mobilenet_wd4") pretrained

/-- `fdmobilenet_w1`. -/
def fdmobilenet_w1 (pretrained : Bool) : Except PyError (MobileNetModel × Bool) :=
  get_mobilenet "fd" 1 (some "fdmobilenet_w1") pretrained

/-- `fdmobilenet_w3d4`. -/
def fdmobilenet_w3d4 (pretrained : Bool) : Except PyError (MobileNetModel × Bool) :=
  get_mobilenet "fd" (3 / 4) (some "fdmobilenet_w3d4") pretrained

/-- `fdmobilenet_wd2`. -/
def fdmobilenet_wd2 (pretrained : Bool) : Except PyError (MobileNetModel × Bool) :=
  get_mobilenet "fd" (1 / 2) (some "fdmobilenet_wd2") pretrained

/-- `fdmobilenet_wd4`. -/
def fdmobilenet_wd4 (pretrained : Bool) : Except PyError (MobileNetModel × Bool) :=
  get_mobilenet "fd" (1 / 4) (some "fdmobilenet_wd4") pretrained

mutual

/-- `remove_sequential`'s treatment of one child: a `nn.Sequential` child is
recursed into, any other child is appended as a leaf of the flattened list. -/
def removeSeqChild : PyModule → List PyModule
  | .sequential cs => removeSeqChildren cs
  | m => [m]

/-- `remove_sequential`'s loop `for layer in network.children()`. -/
def removeSeqChildren : List (String × PyModule) → List PyModule
  | [] => []
  | (_, c) :: rest => removeSeqChild c ++ removeSeqChildren rest

end

/-- `remove_sequential(model, all_layers)` applied to the constructed
`MobileNet` object: iterates over its children `features` (a Sequential,
recursed into) and `output` (appended). -/
def remove_sequentialModel (m : MobileNetModel) : List PyModule :=
  removeSeqChild m.features ++ removeSeqChild m.output

/-- `remove_DwsConvBlock`: re-lists the flattened layers, expanding every
`DwsConvBlock` into its children `dw_conv`, `pw_conv` (in registration order)
and keeping every other layer as is. -/
def remove_DwsConvBlock : List PyModule → List PyModule
  | [] => []
  | .dws dw pw :: rest => dw :: pw :: remove_DwsConvBlock rest
  | m :: rest => m :: remove_DwsConvBlock rest

/-- The assignment `model.features.final_pool = nn.AvgPool2d(4)` in
`MyMobilenetV1.__init__`: replaces the child registered as `final_pool`. -/
def replace_final_pool (m : MobileNetModel) (newPool : PyModule) : MobileNetModel :=
  { m with features :=
      match m.features with
      | .sequential cs =>
          .sequential (cs.map fun p => if p.1 = "final_pool" then (p.1, newPool) else p)
      | other => other }

/-- The base network of `MyMobilenetV1.__init__`: `mobilenet_w1(pretrained=True)`
with its `final_pool` replaced by `nn.AvgPool2d(4)` (kernel 4, stride defaults
to the kernel size).  `mobilenet_w1 true` always succeeds, so the fallback
branch is unreachable (see `mobilenet_w1_isOk`). -/
def myMobilenetModel : MobileNetModel :=
  match mobilenet_w1 true with
  | .ok (m, _) => replace_final_pool m (.avgPool2d 4 4)
  | .error _ => { features := .activ, output := .activ }

/-- The base network before the pool replacement, extracted from the factory
result; the fallback branch is unreachable (see `mobilenet_w1_isOk`). -/
def w1Net : MobileNetModel :=
  match mobilenet_w1 true with
  | .ok (m, _) => m
  | .error _ => { features := .activ, output := .activ }

/-- `mobilenet_w1(pretrained=True)` construction succeeds. -/
theorem mobilenet_w1_isOk : mobilenet_w1 true = .ok (w1Net, true) := rfl

/-- The flattened leaf-layer list `all_layers` of `MyMobilenetV1.__init__`:
`remove_sequential` over the (pool-replaced) base model followed by
`remove_DwsConvBlock`. -/
def my_all_layers : List PyModule :=
  remove_DwsConvBlock (remove_sequentialModel myMobilenetModel)

/-- The partitioning loop of `MyMobilenetV1.__init__`
(`for i, layer in enumerate(all_layers[:-1])`, starting at index `i`):
layers with index `≤ latent_layer_num` go to `lat_list`, the rest to
`end_list`. -/
def partLoop (latent_layer_num : Nat) : Nat → List PyModule → List PyModule × List PyModule
  | _, [] => ([], [])
  | i, l :: rest =>
      let tailPart := partLoop latent_layer_num (i + 1) rest
      if i ≤ latent_layer_num then (l :: tailPart.1, tailPart.2)
      else (tailPart.1, l :: tailPart.2)

/-- `(lat_list, end_list)` of `MyMobilenetV1.__init__` for a given
`latent_layer_num`: the loop runs over `all_layers[:-1]` from index 0. -/
def my_lat_end (latent_layer_num : Nat) : List PyModule × List PyModule :=
  partLoop latent_layer_num 0 my_all_layers.dropLast

mutual

/-- The order in which the forward pass of a module applies the flattening
granularity's layers: `nn.Sequential.forward` applies its children in
registration order, `DwsConvBlock.forward` applies `dw_conv` then `pw_conv`,
and any other module (conv block, pool, linear) is one computation step. -/
def forwardLayers : PyModule → List PyModule
  | .sequential cs => forwardLayersList cs
  | .dws dw pw => forwardLayers dw ++ forwardLayers pw
  | m => [m]

/-- `forwardLayers` over a named child list, in order. -/
def forwardLayersList : List (String × PyModule) → List PyModule
  | [] => []
  | (_, c) :: rest => forwardLayers c ++ forwardLayersList rest

end

/-- `MyMobilenetV1.forward` with the batch dimension made explicit: a tensor
is a list of per-sample slices (`ρ` for activations, `σ` for logit rows) and
`torch.cat((orig_acts, latent_input), 0)` is list append.  `latF`, `endF` are
the functions computed by `self.lat_features`, `self.end_features`; `outF` is
`x.view(x.size(0), -1)` followed by `self.output`.  In the injected branch the
latent features run under `torch.no_grad()`, which does not change computed
values, only gradient tracking. -/
def myForward {ρ σ : Type} (latF endF : List ρ → List ρ) (outF : List ρ → List σ)
    (x : List ρ) : Option (List ρ) → List σ
  | some latent_input =>
      let orig_acts := latF x
      let lat_acts := orig_acts ++ latent_input
      outF (endF lat_acts)
  | none =>
      let orig_acts := latF x
      outF (endF orig_acts)

/-- Stride recorded in the `conv` child of a conv block. -/
def blockConvStride : PyModule → Option Int
  | .block (("conv", .conv2d _ _ s _) :: _) => some s
  | _ => none

/-- Stride of a `DwsConvBlock` unit: the stride of its depthwise conv. -/
def unit_stride : PyModule → Option Int
  | .dws dw _ => blockConvStride dw
  | _ => none

/-- The stage modules of a constructed `MobileNet`, in order: the children of
`features` minus the leading `init_block` and the trailing `final_pool`. -/
def model_stages (m : MobileNetModel) : List PyModule :=
  match m.features with
  | .sequential cs => ((cs.drop 1).dropLast).map Prod.snd
  | _ => []

/-- The unit modules of one stage, in order. -/
def stage_units : PyModule → List PyModule
  | .sequential cs => cs.map Prod.snd
  | _ => []

/-- Whether a layer is a pooling layer. -/
def isPoolLayer : PyModule → Bool
  | .avgPool2d _ _ => true
  | _ => false

/-- Whether a layer is a linear (fully connected) layer. -/
def isLinearLayer : PyModule → Bool
  | .linear _ _ _ _ _ => true
  | _ => false

/-- Whether a factory result is the missing-model-name configuration error. -/
def isMissingNameError : Except PyError (MobileNetModel × Bool) → Bool
  | .error .missingModelName => true
  | _ => false

/-- Whether a module, if it is a normalization layer, has every weight entry
equal to 1 and every bias entry equal to 0 (vacuously true for layers that
are not normalization layers). -/
def bnParamsOk : PyModule → Bool
  | .batchNorm _ w b => decide (w = .const 1) && decide (b = .const 0)
  | _ => true

/-- A small concrete MobileNet (channel table `[[32], [64]]`) used as a test
vehicle; the fallback branch is unreachable. -/
def tinyNet : MobileNetModel :=
  match MobileNetInit [[32], [64]] false 3 1000 with
  | some m => m
  | none => { features := .activ, output := .activ }

/-- `MobileNetInit` on the small table, fully evaluated; used to discharge
hypotheses of the stride-policy theorem at a concrete input. -/
def origNet : MobileNetModel :=
  match MobileNetInit channelsOrig false 3 1000 with
  | some m => m
  | none => { features := .activ, output := .activ }

/-- The constructed `'fd'` base network (unscaled). -/
def fdNet : MobileNetModel :=
  match MobileNetInit channelsFd true 3 1000 with
  | some m => m
  | none => { features := .activ, output := .activ }

/-- Python `int()` truncation agrees with mathematical floor on nonnegative
rationals. -/
theorem pyInt_eq_floor (q : ℚ) (h : 0 ≤ q) : pyInt q = ⌊q⌋ := if_pos h

/-- The partitioning loop splits a list into its first `latent_layer_num + 1 - i`
elements and the rest. -/
theorem partLoop_eq (ls : List PyModule) :
    ∀ (k i : Nat), partLoop k i ls = (ls.take (k + 1 - i), ls.drop (k + 1 - i)) := by
  induction ls with
  | nil => intro k i; simp [partLoop]
  | cons l rest ih =>
      intro k i
      simp only [partLoop, ih k (i + 1)]
      by_cases h : i ≤ k
      · rw [if_pos h]
        have h1 : k + 1 - i = (k - i) + 1 := by omega
        have h2 : k + 1 - (i + 1) = k - i := by omega
        rw [h1, h2]
        simp
      · rw [if_neg h]
        have h1 : k + 1 - i = 0 := by omega
        have h2 : k + 1 - (i + 1) = 0 := by omega
        rw [h1, h2]
        simp

/-- Stride stored in a freshly built `DwsConvBlock`. -/
theorem unit_stride_DwsConvBlock (inC outC s : Int) :
    unit_stride (DwsConvBlock inC outC s) = some s := rfl

/-- Units built by the inner loop of `MobileNet.__init__` starting at loop
index `j0` carry stride 2 exactly on the first loop index of a stage that
downsamples, stride 1 otherwise. -/
theorem buildStageUnits_stride :
    ∀ (chs : List Int) (fss : Bool) (i : Nat) (inC : Int) (j0 q : Nat)
      (pr : String × PyModule),
      (buildStageUnits fss i inC chs j0).1.get? q = some pr →
      unit_stride pr.2 =
        some (if j0 + q = 0 ∧ (i ≠ 0 ∨ fss = true) then 2 else 1) := by
  intro chs
  induction chs with
  | nil => intro fss i inC j0 q pr h; simp [buildStageUnits] at h
  | cons out rest ih =>
      intro fss i inC j0 q pr h
      simp only [buildStageUnits] at h
      cases q with
      | zero =>
          simp only [List.get?_cons_zero, Option.some.injEq] at h
          subst h
          simp [unit_stride_DwsConvBlock]
      | succ q' =>
          simp only [List.get?_cons_succ] at h
          have := ih fss i out (j0 + 1) q' pr h
          have harith : j0 + 1 + q' = j0 + (q' + 1) := by omega
          rwa [harith] at this

/-- Stages built by the outer loop of `MobileNet.__init__` starting at stage
index `i0`: the unit at position `q` of the stage at position `p` has stride 2
exactly when `q = 0` and stage `i0 + p` downsamples. -/
theorem buildStages_stride :
    ∀ (rest : List (List Int)) (fss : Bool) (i0 : Nat) (inC : Int) (p : Nat)
      (pr : String × PyModule),
      (buildStages fss i0 inC rest).1.get? p = some pr →
      ∀ (q : Nat) (u : PyModule), (stage_units pr.2).get? q = some u →
      unit_stride u = some (if q = 0 ∧ (i0 + p ≠ 0 ∨ fss = true) then 2 else 1) := by
  intro rest
  induction rest with
  | nil => intro fss i0 inC p pr h; simp [buildStages] at h
  | cons chs rrest ih =>
      intro fss i0 inC p pr h q u hu
      simp only [buildStages] at h
      cases p with
      | zero =>
          simp only [List.get?_cons_zero, Option.some.injEq] at h
          subst h
          simp only [stage_units, List.get?_map] at hu
          rcases Option.map_eq_some'.1 hu with ⟨pr', hpr', rfl⟩
          have := buildStageUnits_stride chs fss i0 inC 0 q pr' hpr'
          simpa using this
      | succ p' =>
          simp only [List.get?_cons_succ] at h
          have := ih fss (i0 + 1) (buildStageUnits fss i0 inC chs 0).2 p' pr h q u hu
          have harith : i0 + 1 + p' = i0 + (p' + 1) := by omega
          rwa [harith] at this

/-- Claim C1 counterexample: in `MyMobilenetV1.__init__` the very last entry
of the flattened leaf-layer list — the entry `all_layers[:-1]` excludes from
the partition — is not a pooling layer; it is the base network's linear
classifier (`output`), appended after the `features` subtree by
`remove_sequential`. -/
theorem my_all_layers_last_not_pool :
    my_all_layers.getLast?.map isPoolLayer = some false ∧
    my_all_layers.getLast?.map isLinearLayer = some true := ⟨rfl, rfl⟩

/-- Claim C1 (amended): the entry dropped from the partition is the base
network's linear classifier, not the pooling layer; for every split index, the
concatenation of the latent and end partitions (i.e. the flattened list minus
that dropped classifier) reproduces the forward computation order of the base
network's `features` subtree — stem block, each unit's depthwise then
pointwise block, and the (replaced) final pooling layer. -/
theorem my_partition_concat_forward_order :
    (∀ k : Nat, (my_lat_end k).1 ++ (my_lat_end k).2 = my_all_layers.dropLast) ∧
    my_all_layers.dropLast = forwardLayers myMobilenetModel.features ∧
    my_all_layers.getLast?.map isLinearLayer = some true := by
  refine ⟨fun k => ?_, rfl, rfl⟩
  rw [my_lat_end, partLoop_eq]
  exact List.take_append_drop _ _

/-- Claim C4 counterexample: at split index 28 (with 29 flattened leaf layers,
hence 28 partitioned entries) the latent partition has length 28, not
`28 + 1` as the claim asserts for every split index. -/
theorem my_lat_length_at_28 : (my_lat_end 28).1.length ≠ 28 + 1 := by
  have h : (my_lat_end 28).1.length = 28 := rfl
  omega

/-- Claim C4 (amended): for every split index `k` with
`k + 1 ≤ total flattened leaf layers − 1`, the latent partition has length
`k + 1`, the end partition has length `(total − 1) − (k + 1)`, and their
concatenation is the partitioned list in order (relative order preserved). -/
theorem my_partition_lengths (k : Nat) (hk : k + 1 ≤ my_all_layers.length - 1) :
    (my_lat_end k).1.length = k + 1 ∧
    (my_lat_end k).2.length = (my_all_layers.length - 1) - (k + 1) ∧
    (my_lat_end k).1 ++ (my_lat_end k).2 = my_all_layers.dropLast := by
  have hlen : my_all_layers.length = 29 := rfl
  have hdl : my_all_layers.dropLast.length = 28 := rfl
  rw [my_lat_end, partLoop_eq]
  refine ⟨?_, ?_, List.take_append_drop _ _⟩
  · rw [Nat.sub_zero, List.length_take, hdl]
    omega
  · rw [Nat.sub_zero, List.length_drop, hdl, hlen]

/-- Claim C4 witness: at the default split index 20 the latent partition has
21 layers and the end partition 7. -/
theorem my_partition_lengths_at_20 :
    (my_lat_end 20).1.length = 21 ∧ (my_lat_end 20).2.length = 7 := by
  have h := my_partition_lengths 20 (by decide)
  exact ⟨h.1, h.2.1.trans (by rfl)⟩

/-- Claim C3: for every channel table and both values of the
first-stage-stride flag, the unit at position `j` of the stage at position `i`
of the constructed network has stride 2 if `j = 0` and (`i` is not the first
stage or the flag is set), else stride 1.  In particular, for the `'orig'`
table (flag false) the first unit of stage 1 has stride 1, for `'fd'`
(flag true) it has stride 2. -/
theorem mobilenet_stride_policy :
    (∀ (channels : List (List Int)) (fss : Bool) (inC nC : Int)
        (m : MobileNetModel),
      MobileNetInit channels fss inC nC = some m →
      ∀ (i j : Nat) (st u : PyModule),
        (model_stages m).get? i = some st →
        (stage_units st).get? j = some u →
        unit_stride u = some (if j = 0 ∧ (i ≠ 0 ∨ fss = true) then 2 else 1)) ∧
    (∀ m : MobileNetModel, MobileNetInit channelsOrig false 3 1000 = some m →
      ((model_stages m).get? 0).bind
        (fun st => ((stage_units st).get? 0).bind unit_stride) = some 1) ∧
    (∀ m : MobileNetModel, MobileNetInit channelsFd true 3 1000 = some m →
      ((model_stages m).get? 0).bind
        (fun st => ((stage_units st).get? 0).bind unit_stride) = some 2) := by
  refine ⟨?_, ?_, ?_⟩
  · intro channels fss inC nC m hm i j st u hst hu
    match channels, hm with
    | c0 :: rest, hm =>
      match c0, hm with
      | initC :: _, hm =>
        simp only [MobileNetInit, Option.some.injEq] at hm
        subst hm
        simp only [model_stages] at hst
        rw [List.cons_append, List.drop_one, List.tail_cons,
          List.dropLast_concat] at hst
        rw [List.get?_map] at hst
        rcases Option.map_eq_some'.1 hst with ⟨pr, hpr, rfl⟩
        have := buildStages_stride rest fss 0 initC i pr hpr j u hu
        simpa using this
  · intro m hm
    have hM : MobileNetInit channelsOrig false 3 1000 = some origNet := rfl
    rw [hM] at hm
    injection hm with hm
    subst hm
    rfl
  · intro m hm
    have hM : MobileNetInit channelsFd true 3 1000 = some fdNet := rfl
    rw [hM] at hm
    injection hm with hm
    subst hm
    rfl

/-- Claim C3 witness: in the concrete network built from `[[32], [64]]` with
the flag off, the first unit of the first stage has stride 1. -/
theorem mobilenet_stride_policy_witness :
    unit_stride (DwsConvBlock 32 64 1) = some 1 := by
  have h := mobilenet_stride_policy.1 [[32], [64]] false 3 1000 tinyNet rfl 0 0
    (.sequential [("unit1", DwsConvBlock 32 64 1)]) (DwsConvBlock 32 64 1) rfl rfl
  simpa using h

/-- On a table of nonnegative channel counts and a nonnegative scale `≠ 1`,
the scaling step replaces every entry by `⌊entry * scale⌋`. -/
theorem scale_channels_floor (T : List (List Int)) (s : ℚ) (hs : 0 ≤ s)
    (hT : ∀ ci ∈ T, ∀ c ∈ ci, 0 ≤ c) (hne : s ≠ 1) :
    scale_channels T s = T.map (fun ci => ci.map (fun c : Int => ⌊(c : ℚ) * s⌋)) := by
  unfold scale_channels
  rw [if_pos hne]
  refine List.map_congr_left fun ci hci => ?_
  refine List.map_congr_left fun c hc => ?_
  exact pyInt_eq_floor _ (mul_nonneg (by exact_mod_cast hT ci hci c hc) hs)

/-- Claim C5: in `get_mobilenet`, for a nonnegative width scale `s ≠ 1`, every
channel count of the selected base table (`'orig'` or `'fd'`) is replaced by
`⌊count * s⌋`; for `s = 1` the table is returned unchanged. -/
theorem get_mobilenet_width_scaling (s : ℚ) (hs : 0 ≤ s) :
    (s ≠ 1 →
      scale_channels channelsOrig s =
        channelsOrig.map (fun ci => ci.map (fun c : Int => ⌊(c : ℚ) * s⌋)) ∧
      scale_channels channelsFd s =
        channelsFd.map (fun ci => ci.map (fun c : Int => ⌊(c : ℚ) * s⌋))) ∧
    (s = 1 → scale_channels channelsOrig s = channelsOrig ∧
      scale_channels channelsFd s = channelsFd) := by
  constructor
  · intro hne
    exact ⟨scale_channels_floor _ _ hs (by decide) hne,
      scale_channels_floor _ _ hs (by decide) hne⟩
  · intro h1
    subst h1
    constructor <;> simp [scale_channels]

/-- Claim C5 witness: the scaling evaluated at `s = 0.75` on the `'orig'`
table and at `s = 0.25` on the `'fd'` table, and the identity at `s = 1`. -/
theorem get_mobilenet_width_scaling_witness :
    scale_channels channelsOrig (3 / 4) =
      channelsOrig.map (fun ci => ci.map (fun c : Int => ⌊(c : ℚ) * (3 / 4)⌋)) ∧
    scale_channels channelsFd (1 / 4) =
      channelsFd.map (fun ci => ci.map (fun c : Int => ⌊(c : ℚ) * (1 / 4)⌋)) ∧
    scale_channels channelsOrig 1 = channelsOrig := by
  refine ⟨((get_mobilenet_width_scaling (3 / 4) (by norm_num)).1 (by norm_num)).1,
    ((get_mobilenet_width_scaling (1 / 4) (by norm_num)).1 (by norm_num)).2,
    ((get_mobilenet_width_scaling 1 (by norm_num)).2 rfl).1⟩

/-- Claim C6: for every input, running `MyMobilenetV1.forward` with an
injected activation tensor of zero size along the batch dimension produces
logits identical to the run with no injected activation: concatenating the
empty batch leaves the latent activations unchanged, after which both paths
apply the same end features and classifier. -/
theorem myForward_zero_injection (ρ σ : Type) (latF endF : List ρ → List ρ)
    (outF : List ρ → List σ) (x : List ρ) :
    myForward latF endF outF x (some []) = myForward latF endF outF x none := by
  simp [myForward]

/-- For every width scale, the scaled `'orig'` and `'fd'` tables still have a
nonempty first entry, so construction inside `get_mobilenet` succeeds. -/
theorem mobileNetInit_scaled_ok (T : List (List Int)) (s : ℚ) (fss : Bool)
    (hT : T = channelsOrig ∨ T = channelsFd) :
    ∃ net, MobileNetInit (scale_channels T s) fss 3 1000 = some net := by
  rcases hT with rfl | rfl <;>
  · unfold scale_channels
    by_cases h1 : s ≠ 1
    · rw [if_pos h1]
      exact ⟨_, rfl⟩
    · rw [if_neg h1]
      exact ⟨_, rfl⟩

/-- Claim C7: `get_mobilenet` fails with the unsupported-version error for any
version tag other than `"orig"` / `"fd"` — before any table scaling or
construction — and fails with the missing-model-name error whenever pretrained
loading is requested with an absent or empty model name; in both cases the
error is the returned outcome, so no constructed network is produced and no
download is performed. -/
theorem get_mobilenet_config_errors :
    (∀ (version : String) (s : ℚ) (n : Option String) (p : Bool),
      version ≠ "orig" → version ≠ "fd" →
      get_mobilenet version s n p = .error .unsupportedVersion) ∧
    (∀ (version : String) (s : ℚ) (n : Option String),
      (version = "orig" ∨ version = "fd") → (n = none ∨ n = some "") →
      get_mobilenet version s n true = .error .missingModelName) := by
  constructor
  · intro version s n p h1 h2
    unfold get_mobilenet
    rw [if_neg h1, if_neg h2]
  · intro version s n hv hn
    have hcond : (n = none ∨ n = some "") := hn
    rcases hv with rfl | rfl
    · obtain ⟨net, hnet⟩ := mobileNetInit_scaled_ok channelsOrig s false (Or.inl rfl)
      unfold get_mobilenet
      rw [if_pos rfl]
      unfold get_mobilenet_build
      rw [hnet]
      simp [hcond]
    · obtain ⟨net, hnet⟩ := mobileNetInit_scaled_ok channelsFd s true (Or.inr rfl)
      unfold get_mobilenet
      rw [if_neg (by decide), if_pos rfl]
      unfold get_mobilenet_build
      rw [hnet]
      simp [hcond]

/-- Claim C7 witness: an unsupported version tag and a pretrained request
without a model name, each at concrete inputs. -/
theorem get_mobilenet_config_errors_witness :
    get_mobilenet "resnet" 1 none false = .error .unsupportedVersion ∧
    get_mobilenet "orig" 1 none true = .error .missingModelName :=
  ⟨get_mobilenet_config_errors.1 "resnet" 1 none false (by decide) (by decide),
    get_mobilenet_config_errors.2 "orig" 1 none (Or.inl rfl) (Or.inl rfl)⟩

/-- Claim C9 counterexample: the claim asserts construction must not crash for
every channel table with fewer than 2 entries, including the empty table; but
`channels[0][0]` raises `IndexError` (modelled by `none`) on the empty table,
and likewise on a table whose only entry is the empty list. -/
theorem mobileNetInit_empty_crashes :
    MobileNetInit [] false 3 1000 = none ∧
    MobileNetInit [[]] false 3 1000 = none := ⟨rfl, rfl⟩

/-- Claim C9 (amended): for a single-entry channel table whose entry is
nonempty, construction succeeds and degenerates to the stem convolution, the
final pool and the linear classifier, with no stages; the empty table (or an
empty first entry) crashes instead. -/
theorem mobileNetInit_degenerate (fss : Bool) (c0 : Int) (cr : List Int)
    (inC nC : Int) :
    MobileNetInit [c0 :: cr] fss inC nC =
      some { features := .sequential
               [("init_block", conv3x3_block inC c0 2),
                ("final_pool", .avgPool2d 7 1)],
             output := .linear c0 nC true .defaultInit .defaultInit } := rfl

/-- Passing a non-empty model name to the factory body can never produce the
missing-model-name error, for either base table, any width scale and either
pretrained flag. -/
theorem build_not_missing_name (T : List (List Int)) (fss : Bool) (s : ℚ)
    (hT : T = channelsOrig ∨ T = channelsFd) (n : String) (hn : n ≠ "")
    (p : Bool) :
    isMissingNameError (get_mobilenet_build T fss s (some n) p) = false := by
  obtain ⟨net, hnet⟩ := mobileNetInit_scaled_ok T s fss hT
  unfold get_mobilenet_build
  rw [hnet]
  cases p
  · rfl
  · show isMissingNameError
        (if (some n : Option String) = none ∨ (some n : Option String) = some ""
          then Except.error PyError.missingModelName
          else Except.ok (net, true)) = false
    rw [if_neg (by simp [hn])]
    rfl

/-- The `'orig'` branch of the version dispatch. -/
theorem get_mobilenet_orig (s : ℚ) (n : Option String) (p : Bool) :
    get_mobilenet "orig" s n p = get_mobilenet_build channelsOrig false s n p := by
  unfold get_mobilenet
  rw [if_pos rfl]

/-- The `'fd'` branch of the version dispatch. -/
theorem get_mobilenet_fd (s : ℚ) (n : Option String) (p : Bool) :
    get_mobilenet "fd" s n p = get_mobilenet_build channelsFd true s n p := by
  unfold get_mobilenet
  rw [if_neg (by decide), if_pos rfl]

/-- Claim C10: each of the 8 named variant functions passes its fixed
non-empty model name to `get_mobilenet`, so — for either value of the
pretrained flag — none of them can return the missing-model-name
configuration error: that branch is unreachable through the named-variant
interface. -/
theorem named_variants_never_missing_name (p : Bool) :
    isMissingNameError (mobilenet_w1 p) = false ∧
    isMissingNameError (mobilenet_w3d4 p) = false ∧
    isMissingNameError (mobilenet_wd2 p) = false ∧
    isMissingNameError (mobilenet_wd4 p) = false ∧
    isMissingNameError (fdmobilenet_w1 p) = false ∧
    isMissingNameError (fdmobilenet_w3d4 p) = false ∧
    isMissingNameError (fdmobilenet_wd2 p) = false ∧
    isMissingNameError (fdmobilenet_wd4 p) = false := by
  refine ⟨?_, ?_, ?_, ?_, ?_, ?_, ?_, ?_⟩
  · rw [mobilenet_w1, get_mobilenet_orig]
    exact build_not_missing_name _ _ _ (Or.inl rfl) _ (by decide) p
  · rw [mobilenet_w3d4, get_mobilenet_orig]
    exact build_not_missing_name _ _ _ (Or.inl rfl) _ (by decide) p
  · rw [mobilenet_wd2, get_mobilenet_orig]
    exact build_not_missing_name _ _ _ (Or.inl rfl) _ (by decide) p
  · rw [mobilenet_wd4, get_mobilenet_orig]
    exact build_not_missing_name _ _ _ (Or.inl rfl) _ (by decide) p
  · rw [fdmobilenet_w1, get_mobilenet_fd]
    exact build_not_missing_name _ _ _ (Or.inr rfl) _ (by decide) p
  · rw [fdmobilenet_w3d4, get_mobilenet_fd]
    exact build_not_missing_name _ _ _ (Or.inr rfl) _ (by decide) p
  · rw [fdmobilenet_wd2, get_mobilenet_fd]
    exact build_not_missing_name _ _ _ (Or.inr rfl) _ (by decide) p
  · rw [fdmobilenet_wd4, get_mobilenet_fd]
    exact build_not_missing_name _ _ _ (Or.inr rfl) _ (by decide) p

/-- Claim C2 evaluated against the code (the claim is right, the code has a
slip): `named_modules()` prefixes every descendant of `self.features` with
`"features."`, so the comparison `name == 'init_block.conv'` in
`_init_params` never fires; the stem convolution is matched by no rule and its
weight is left at the framework default, while (for contrast) a pointwise
convolution is matched and rewritten to the fan-out initialization.  So the
pass does leave a module holding a learnable parameter untouched. -/
theorem stem_conv_left_uninitialized :
    (namedModulesModel tinyNet).lookup "features.init_block.conv" =
      some (.conv2d 3 32 2 .defaultInit) ∧
    initRuleFor "features.init_block.conv" = .noRule ∧
    (namedModulesModel (init_params tinyNet)).lookup "features.init_block.conv" =
      some (.conv2d 3 32 2 .defaultInit) ∧
    (namedModulesModel (init_params tinyNet)).lookup
        "features.stage1.unit1.pw_conv.conv" =
      some (.conv2d 32 64 1 .kaimingNormalFanOut) := by
  refine ⟨rfl, by decide, rfl, rfl⟩

/-- A character list consisting only of decimal digits. -/
def digitsOnly (l : List Char) : Prop := ∀ c ∈ l, c.isDigit = true

/-- `natDigitChar` produces digits. -/
theorem natDigitChar_isDigit (d : Nat) (h : d < 10) :
    (natDigitChar d).isDigit = true := by
  interval_cases d <;> decide

/-- Decimal conversion produces only digit characters. -/
theorem natToDigitsAux_digits :
    ∀ (fuel n : Nat), digitsOnly (natToDigitsAux fuel n) := by
  intro fuel
  induction fuel with
  | zero => intro n c hc; simp [natToDigitsAux] at hc
  | succ f ih =>
      intro n c hc
      rw [natToDigitsAux] at hc
      by_cases h : n < 10
      · rw [if_pos h] at hc
        simp only [List.mem_singleton] at hc
        subst hc
        exact natDigitChar_isDigit n h
      · rw [if_neg h] at hc
        rcases List.mem_append.1 hc with hc | hc
        · exact ih (n / 10) c hc
        · simp only [List.mem_singleton] at hc
          subst hc
          exact natDigitChar_isDigit _ (Nat.mod_lt n (by omega))

/-- The stage/unit indices formatted into module names are digit strings. -/
theorem digitsOnly_natToString (n : Nat) : digitsOnly (natToString n).data :=
  natToDigitsAux_digits (n + 1) n

/-- A non-digit character does not occur in a digit string. -/
theorem count_eq_zero_of_digitsOnly {c : Char} (hc : c.isDigit = false)
    {l : List Char} (h : digitsOnly l) : l.count c = 0 :=
  List.count_eq_zero.2 fun hm => by
    rw [h c hm] at hc
    exact Bool.noConfusion hc

/-- If a module's full name holds at most one `'v'`, at least one `'f'`, and
contains `"bn"`, then `_init_params` selects the normalization branch for it:
the two convolution patterns each contain two `'v'`s and the stem-name
comparison string contains no `'f'`, so none of the earlier branches fires. -/
theorem initRuleFor_eq_bnConst (name : String)
    (hv : name.data.count 'v' ≤ 1)
    (hf : 1 ≤ name.data.count 'f')
    (hbn : pyIn "bn" name) :
    initRuleFor name = .bnConst := by
  have h1 : ¬ pyIn "dw_conv.conv" name := by
    intro h
    have h' : "dw_conv.conv".data <:+: name.data := h
    have hle := h'.count_le 'v'
    rw [show ("dw_conv.conv".data.count 'v') = 2 from by decide] at hle
    omega
  have h2 : ¬ pyIn "pw_conv.conv" name := by
    intro h
    have h' : "pw_conv.conv".data <:+: name.data := h
    have hle := h'.count_le 'v'
    rw [show ("pw_conv.conv".data.count 'v') = 2 from by decide] at hle
    omega
  have h3 : name ≠ "init_block.conv" := by
    intro h
    rw [h] at hf
    rw [show (("init_block.conv" : String).data.count 'f') = 0 from by decide] at hf
    omega
  have h23 : ¬(name = "init_block.conv" ∨ pyIn "pw_conv.conv" name) := by
    rintro (h | h)
    · exact h3 h
    · exact h2 h
  unfold initRuleFor
  rw [if_neg h1, if_neg h23, if_pos hbn]

/-- `childName` for a nonempty prefix appends a dot and the child's name. -/
theorem childName_data (pre n : String) (h : pre ≠ "") :
    (childName pre n).data = pre.data ++ '.' :: n.data := by
  unfold childName
  rw [if_neg h]
  simp

/-- `childName` of a nonempty prefix is nonempty. -/
theorem childName_ne_empty (pre n : String) (h : pre ≠ "") :
    childName pre n ≠ "" := by
  intro he
  have hd := congrArg String.data he
  rw [childName_data pre n h] at hd
  simp at hd

/-- The name of a `bn` child ends in `"bn"`, so the substring test `'bn' in
name` succeeds. -/
theorem pyIn_bn_childName (pre : String) (h : pre ≠ "") :
    pyIn "bn" (childName pre "bn") := by
  show ("bn" : String).data <:+: (childName pre "bn").data
  rw [childName_data _ _ h]
  exact List.IsSuffix.isInfix ⟨pre.data ++ ['.'], by simp⟩

/-- For digit strings `d1`, `d2`, the rule selected for the batch-norm inside
the depthwise block of unit `d2` of stage `d1` is the normalization branch. -/
theorem rule_dw_bn (d1 d2 : String) (hd1 : digitsOnly d1.data)
    (hd2 : digitsOnly d2.data) :
    initRuleFor (childName (childName (childName
      (childName "features" ("stage" ++ d1)) ("unit" ++ d2)) "dw_conv") "bn")
      = .bnConst := by
  have hfe : ("features" : String) ≠ "" := by decide
  have hp1 : childName "features" ("stage" ++ d1) ≠ "" :=
    childName_ne_empty _ _ hfe
  have hp2 : childName (childName "features" ("stage" ++ d1)) ("unit" ++ d2) ≠ "" :=
    childName_ne_empty _ _ hp1
  have hp3 : childName (childName (childName "features" ("stage" ++ d1))
      ("unit" ++ d2)) "dw_conv" ≠ "" :=
    childName_ne_empty _ _ hp2
  have hv1 : d1.data.count 'v' = 0 :=
    count_eq_zero_of_digitsOnly (by decide) hd1
  have hv2 : d2.data.count 'v' = 0 :=
    count_eq_zero_of_digitsOnly (by decide) hd2
  have hf1 : d1.data.count 'f' = 0 :=
    count_eq_zero_of_digitsOnly (by decide) hd1
  have hf2 : d2.data.count 'f' = 0 :=
    count_eq_zero_of_digitsOnly (by decide) hd2
  apply initRuleFor_eq_bnConst
  · simp only [childName_data _ _ hp3, childName_data _ _ hp2,
      childName_data _ _ hp1, childName_data _ _ hfe, String.data_append,
      List.count_append, List.count_cons, hv1, hv2]
    decide
  · simp only [childName_data _ _ hp3, childName_data _ _ hp2,
      childName_data _ _ hp1, childName_data _ _ hfe, String.data_append,
      List.count_append, List.count_cons, hf1, hf2]
    decide
  · exact pyIn_bn_childName _ hp3

/-- Same as `rule_dw_bn` for the pointwise block. -/
theorem rule_pw_bn (d1 d2 : String) (hd1 : digitsOnly d1.data)
    (hd2 : digitsOnly d2.data) :
    initRuleFor (childName (childName (childName
      (childName "features" ("stage" ++ d1)) ("unit" ++ d2)) "pw_conv") "bn")
      = .bnConst := by
  have hfe : ("features" : String) ≠ "" := by decide
  have hp1 : childName "features" ("stage" ++ d1) ≠ "" :=
    childName_ne_empty _ _ hfe
  have hp2 : childName (childName "features" ("stage" ++ d1)) ("unit" ++ d2) ≠ "" :=
    childName_ne_empty _ _ hp1
  have hp3 : childName (childName (childName "features" ("stage" ++ d1))
      ("unit" ++ d2)) "pw_conv" ≠ "" :=
    childName_ne_empty _ _ hp2
  have hv1 : d1.data.count 'v' = 0 :=
    count_eq_zero_of_digitsOnly (by decide) hd1
  have hv2 : d2.data.count 'v' = 0 :=
    count_eq_zero_of_digitsOnly (by decide) hd2
  have hf1 : d1.data.count 'f' = 0 :=
    count_eq_zero_of_digitsOnly (by decide) hd1
  have hf2 : d2.data.count 'f' = 0 :=
    count_eq_zero_of_digitsOnly (by decide) hd2
  apply initRuleFor_eq_bnConst
  · simp only [childName_data _ _ hp3, childName_data _ _ hp2,
      childName_data _ _ hp1, childName_data _ _ hfe, String.data_append,
      List.count_append, List.count_cons, hv1, hv2]
    decide
  · simp only [childName_data _ _ hp3, childName_data _ _ hp2,
      childName_data _ _ hp1, childName_data _ _ hfe, String.data_append,
      List.count_append, List.count_cons, hf1, hf2]
    decide
  · exact pyIn_bn_childName _ hp3

/-- Initialization actions keep `bnParamsOk` on non-norm leaves. -/
theorem bnParamsOk_applyAction_conv (r : InitAction) (i o s : Int) (w : ParamVal) :
    bnParamsOk (applyAction r (.conv2d i o s w)) = true := by
  cases r <;> rfl

/-- See `bnParamsOk_applyAction_conv`. -/
theorem bnParamsOk_applyAction_activ (r : InitAction) :
    bnParamsOk (applyAction r .activ) = true := by
  cases r <;> rfl

/-- See `bnParamsOk_applyAction_conv`. -/
theorem bnParamsOk_applyAction_pool (r : InitAction) (k s : Int) :
    bnParamsOk (applyAction r (.avgPool2d k s)) = true := by
  cases r <;> rfl

/-- See `bnParamsOk_applyAction_conv`. -/
theorem bnParamsOk_applyAction_linear (r : InitAction) (i o : Int) (hb : Bool)
    (w b : ParamVal) :
    bnParamsOk (applyAction r (.linear i o hb w b)) = true := by
  cases r <;> rfl

/-- Unfolding equation for `initParamsList` on a cons cell. -/
theorem initParamsList_cons (pre n : String) (c : PyModule)
    (tl : List (String × PyModule)) :
    initParamsList pre ((n, c) :: tl) =
      (n, initParamsAux (childName pre n) c) :: initParamsList pre tl := rfl

/-- Unfolding equation for `initParamsList` on the empty list. -/
theorem initParamsList_nil (pre : String) : initParamsList pre [] = [] := rfl

/-- Unfolding equation for `namedModulesList` on a cons cell. -/
theorem namedModulesList_cons (pre n : String) (c : PyModule)
    (tl : List (String × PyModule)) :
    namedModulesList pre ((n, c) :: tl) =
      namedModulesAux (childName pre n) c ++ namedModulesList pre tl := rfl

/-- Unfolding equation for `namedModulesList` on the empty list. -/
theorem namedModulesList_nil (pre : String) : namedModulesList pre [] = [] := rfl

/-- `_init_params` distributes over concatenated child lists. -/
theorem initParamsList_append (pre : String) (a b : List (String × PyModule)) :
    initParamsList pre (a ++ b) = initParamsList pre a ++ initParamsList pre b := by
  induction a with
  | nil => rfl
  | cons hd tl ih =>
      obtain ⟨n, c⟩ := hd
      simp [initParamsList, ih]

/-- `named_modules()` distributes over concatenated child lists. -/
theorem namedModulesList_append (pre : String) (a b : List (String × PyModule)) :
    namedModulesList pre (a ++ b) =
      namedModulesList pre a ++ namedModulesList pre b := by
  induction a with
  | nil => rfl
  | cons hd tl ih =>
      obtain ⟨n, c⟩ := hd
      simp [namedModulesList, ih]

/-- A rewritten convolution leaf is still a leaf for `named_modules()`. -/
theorem namedModulesAux_applyAction_conv (pre : String) (r : InitAction)
    (i o s : Int) (w : ParamVal) :
    namedModulesAux pre (applyAction r (.conv2d i o s w)) =
      [(pre, applyAction r (.conv2d i o s w))] := by
  cases r <;> rfl

/-- A rewritten activation leaf is still a leaf for `named_modules()`. -/
theorem namedModulesAux_applyAction_activ (pre : String) (r : InitAction) :
    namedModulesAux pre (applyAction r .activ) = [(pre, applyAction r .activ)] := by
  cases r <;> rfl

/-- A rewritten pooling leaf is still a leaf for `named_modules()`. -/
theorem namedModulesAux_applyAction_pool (pre : String) (r : InitAction)
    (k s : Int) :
    namedModulesAux pre (applyAction r (.avgPool2d k s)) =
      [(pre, applyAction r (.avgPool2d k s))] := by
  cases r <;> rfl

/-- A rewritten linear leaf is still a leaf for `named_modules()`. -/
theorem namedModulesAux_applyAction_linear (pre : String) (r : InitAction)
    (i o : Int) (hb : Bool) (w b : ParamVal) :
    namedModulesAux pre (applyAction r (.linear i o hb w b)) =
      [(pre, applyAction r (.linear i o hb w b))] := by
  cases r <;> rfl

/-- After `_init_params`, every module in a conv block whose `bn` child name
selects the normalization branch satisfies `bnParamsOk`. -/
theorem bn_ok_generic_block (pre : String) (i o s o2 : Int) (w0 w1 b1 : ParamVal)
    (hrule : initRuleFor (childName pre "bn") = .bnConst) :
    ((namedModulesAux pre (initParamsAux pre
        (.block [("conv", .conv2d i o s w0), ("bn", .batchNorm o2 w1 b1),
                 ("activ", .activ)]))).all
      fun pr => bnParamsOk pr.2) = true := by
  simp only [initParamsAux, initParamsList, namedModulesAux, namedModulesList,
    List.all_cons, List.all_append, List.all_nil, hrule,
    namedModulesAux_applyAction_conv, namedModulesAux_applyAction_activ,
    bnParamsOk_applyAction_conv, bnParamsOk_applyAction_activ,
    Bool.and_true, Bool.true_and]
  rfl

/-- After `_init_params`, every module of a `DwsConvBlock` whose two inner
`bn` names select the normalization branch satisfies `bnParamsOk`. -/
theorem bn_ok_dws (pre : String) (i o s : Int)
    (h1 : initRuleFor (childName (childName pre "dw_conv") "bn") = .bnConst)
    (h2 : initRuleFor (childName (childName pre "pw_conv") "bn") = .bnConst) :
    ((namedModulesAux pre (initParamsAux pre (DwsConvBlock i o s))).all
      fun pr => bnParamsOk pr.2) = true := by
  have edws : initParamsAux pre (DwsConvBlock i o s) =
      PyModule.dws (initParamsAux (childName pre "dw_conv") (dwconv3x3_block i i s))
        (initParamsAux (childName pre "pw_conv") (conv1x1_block i o)) := rfl
  have enm : ∀ a b : PyModule, namedModulesAux pre (PyModule.dws a b) =
      (pre, PyModule.dws a b) ::
        (namedModulesAux (childName pre "dw_conv") a ++
          namedModulesAux (childName pre "pw_conv") b) := fun a b => rfl
  rw [edws, enm]
  simp only [List.all_cons, List.all_append, Bool.and_eq_true]
  exact ⟨rfl, bn_ok_generic_block _ i i s i _ _ _ h1,
    bn_ok_generic_block _ i o 1 o _ _ _ h2⟩

/-- After `_init_params`, every module of every unit built by the inner loop
of `MobileNet.__init__` under a stage prefix `spre` satisfies `bnParamsOk`,
provided every unit name under `spre` selects the normalization branch for
its two `bn` children. -/
theorem bn_ok_units (spre : String)
    (H : ∀ d : String, digitsOnly d.data →
      initRuleFor (childName (childName (childName spre ("unit" ++ d))
        "dw_conv") "bn") = .bnConst ∧
      initRuleFor (childName (childName (childName spre ("unit" ++ d))
        "pw_conv") "bn") = .bnConst) :
    ∀ (chs : List Int) (fss : Bool) (i : Nat) (inC : Int) (j0 : Nat),
      ((namedModulesList spre (initParamsList spre
          (buildStageUnits fss i inC chs j0).1)).all
        fun pr => bnParamsOk pr.2) = true := by
  intro chs
  induction chs with
  | nil => intro fss i inC j0; rfl
  | cons out rest ih =>
      intro fss i inC j0
      simp only [buildStageUnits, initParamsList, namedModulesList,
        List.all_append, Bool.and_eq_true]
      have hd : digitsOnly (natToString (j0 + 1)).data :=
        digitsOnly_natToString (j0 + 1)
      obtain ⟨hdw, hpw⟩ := H (natToString (j0 + 1)) hd
      exact ⟨bn_ok_dws _ _ _ _ hdw hpw, ih fss i out (j0 + 1)⟩

/-- After `_init_params`, every module of every stage built by the outer loop
of `MobileNet.__init__` satisfies `bnParamsOk`. -/
theorem bn_ok_stages :
    ∀ (rest : List (List Int)) (fss : Bool) (i0 : Nat) (inC : Int),
      ((namedModulesList "features" (initParamsList "features"
          (buildStages fss i0 inC rest).1)).all
        fun pr => bnParamsOk pr.2) = true := by
  intro rest
  induction rest with
  | nil => intro fss i0 inC; rfl
  | cons chs rrest ih =>
      intro fss i0 inC
      simp only [buildStages, initParamsList, namedModulesList, initParamsAux,
        namedModulesAux, List.all_append, List.all_cons, Bool.and_eq_true]
      refine ⟨⟨rfl, ?_⟩, ih fss (i0 + 1) (buildStageUnits fss i0 inC chs 0).2⟩
      apply bn_ok_units
      intro d hdd
      exact ⟨rule_dw_bn (natToString (i0 + 1)) d
          (digitsOnly_natToString (i0 + 1)) hdd,
        rule_pw_bn (natToString (i0 + 1)) d
          (digitsOnly_natToString (i0 + 1)) hdd⟩

/-- Claim C8: after `MobileNet` construction (whose `__init__` ends by running
`_init_params`), every normalization-layer module of the network has every
weight entry equal to 1 and every bias entry equal to 0: each batch norm sits
at a name ending in `"bn"` whose earlier, convolution-pattern branches cannot
match, so the `'bn' in name` branch rewrites it with `constant_(weight, 1)`
and `constant_(bias, 0)`. -/
theorem mobilenet_bn_initialized :
    ∀ (channels : List (List Int)) (fss : Bool) (inC nC : Int)
      (m : MobileNetModel),
      MobileNetInit channels fss inC nC = some m →
      ((namedModulesModel (init_params m)).all fun pr => bnParamsOk pr.2) = true := by
  intro channels fss inC nC m hm
  match channels, hm with
  | c0 :: rest, hm =>
    match c0, hm with
    | initC :: _, hm =>
      simp only [MobileNetInit, Option.some.injEq] at hm
      subst hm
      simp only [init_params, namedModulesModel]
      have efeat : initParamsAux "features"
          (PyModule.sequential
            ((("init_block", conv3x3_block inC initC 2)
                :: (buildStages fss 0 initC rest).1)
              ++ [("final_pool", PyModule.avgPool2d 7 1)])) =
          PyModule.sequential (initParamsList "features"
            ((("init_block", conv3x3_block inC initC 2)
                :: (buildStages fss 0 initC rest).1)
              ++ [("final_pool", PyModule.avgPool2d 7 1)])) := rfl
      have enmseq : ∀ l : List (String × PyModule),
          namedModulesAux "features" (PyModule.sequential l) =
            ("features", PyModule.sequential l) :: namedModulesList "features" l :=
        fun l => rfl
      rw [efeat, enmseq]
      simp only [List.cons_append, initParamsList_cons, initParamsList_nil,
        initParamsList_append, namedModulesList_cons, namedModulesList_nil,
        namedModulesList_append, List.append_nil, List.all_cons,
        List.all_append, List.all_nil, Bool.and_eq_true, Bool.and_true]
      refine ⟨rfl, ⟨?_, ?_, ?_⟩, ?_⟩
      · exact bn_ok_generic_block _ inC initC 2 initC _ _ _ (by decide)
      · exact bn_ok_stages rest fss 0 initC
      · rw [show initParamsAux (childName "features" "final_pool")
              (PyModule.avgPool2d 7 1) =
            applyAction (initRuleFor (childName "features" "final_pool"))
              (PyModule.avgPool2d 7 1) from rfl]
        rw [namedModulesAux_applyAction_pool]
        simp only [List.all_cons, List.all_append, List.all_nil,
          bnParamsOk_applyAction_pool, Bool.and_true]
      · rw [show initParamsAux "output"
              (PyModule.linear (buildStages fss 0 initC rest).2 nC true
                ParamVal.defaultInit ParamVal.defaultInit) =
            applyAction (initRuleFor "output")
              (PyModule.linear (buildStages fss 0 initC rest).2 nC true
                ParamVal.defaultInit ParamVal.defaultInit) from rfl]
        rw [namedModulesAux_applyAction_linear]
        simp only [List.all_cons, List.all_nil,
          bnParamsOk_applyAction_linear, Bool.and_true]

/-- Claim C8 witness: the normalization-parameter check evaluated on the
concrete network built from `[[32], [64]]`. -/
theorem mobilenet_bn_initialized_witness :
    ((namedModulesModel (init_params tinyNet)).all fun pr => bnParamsOk pr.2) = true :=
  mobilenet_bn_initialized [[32], [64]] false 3 1000 tinyNet rfl
